import Mathlib

/-!
Shallow embedding of the animation strategy selector
(`src/packages/framer-motion/src/animation/index.ts`, `createMotionValueAnimation`)
and of the range-transform utility (`src/src/utils/transform.ts`, `transform`),
together with spec-modelled versions of the external collaborators that are not
part of this repository (keyframe resolver, default-transition heuristic table,
transition-definedness predicate, instant strategy factory, the popcorn
`interpolate` function, and the seconds-to-milliseconds converter).

Modelling conventions: absent JavaScript fields are `Option.none`, JavaScript
truthiness of a number is `≠ 0`, numeric values are rationals, and user
callbacks are modelled by the traces of observable events they produce.
-/

namespace Motion

/-- Events observable through the callback wiring of an animation start:
writing the new value into the `MotionValue` (`value.set(v)`), forwarding to
the user's `onUpdate`, invoking the caller-supplied completion callback
(the argument of the returned `StartAnimation`), and forwarding to the user's
`onComplete`. -/
inductive Event where
  | setValue (v : ℚ)
  | userUpdate (v : ℚ)
  | completeCb
  | userComplete
deriving DecidableEq

/-- The `type` values the selector inspects: `"tween" | "spring" | "inertia" | false`.
`disabled` stands for the literal `false`. -/
inductive TransitionType where
  | tween
  | spring
  | inertia
  | disabled
deriving DecidableEq

/-- Named easing curves, as handed out by the default-transition table. -/
inductive EaseKind where
  | linear
  | easeOut
  | easeInOut
deriving DecidableEq

/-- The public transition record (`Transition & { elapsed?: number }` in the
source). `delay`, `duration`, `repeatDelay` are in seconds; `elapsed` is in
milliseconds (internal resumption offset). Callbacks are modelled as the
event traces they produce when invoked. -/
structure Transition where
  delay : Option ℚ := none
  elapsed : Option ℚ := none
  type : Option TransitionType := none
  duration : Option ℚ := none
  «repeat» : Option ℕ := none
  repeatDelay : Option ℚ := none
  ease : Option EaseKind := none
  onUpdate : Option (ℚ → List Event) := none
  onComplete : Option (List Event) := none

/-- Object-spread / `??` precedence on optional fields: the left value wins
when present. -/
def orO {α : Type} (a b : Option α) : Option α :=
  match a with
  | some x => some x
  | none => b

/-- JavaScript truthiness of an optional number: `undefined` and `0` are falsy. -/
def truthyQ : Option ℚ → Bool
  | some q => decide (q ≠ 0)
  | none => false

/-- JavaScript `a || b` where `a` is an optional number and `b` a number:
a present but zero value is falsy and falls through. -/
def orTruthy (a : Option ℚ) (b : ℚ) : ℚ :=
  match a with
  | some x => if x = 0 then b else x
  | none => b

/-- JavaScript truthiness of an optional repeat count. -/
def truthyN : Option ℕ → Bool
  | some n => decide (n ≠ 0)
  | none => false

/-- Modelled from the spec: `getValueTransition` (imported from
`./utils/transitions`, not under `src/`). Per spec §4.1 step 1, resolve the
effective per-value transition by merging the value-specific override onto the
root transition, value-specific fields winning field-by-field; the root itself
when no override exists. The source's `|| {}` guard never fires in this model
because the merge always yields a record. -/
def getValueTransition (root : Transition) (valueOverride : Option Transition) : Transition :=
  match valueOverride with
  | none => root
  | some o =>
      { delay := orO o.delay root.delay
        elapsed := orO o.elapsed root.elapsed
        type := orO o.type root.type
        duration := orO o.duration root.duration
        «repeat» := orO o.«repeat» root.«repeat»
        repeatDelay := orO o.repeatDelay root.repeatDelay
        ease := orO o.ease root.ease
        onUpdate := orO o.onUpdate root.onUpdate
        onComplete := orO o.onComplete root.onComplete }

/-- `const delay = valueTransition.delay || transition.delay || 0`
(src/packages/framer-motion/src/animation/index.ts:34): JavaScript `||`,
so a present-but-zero value-specific delay falls through to the root delay. -/
def computeDelay (valueTransition root : Transition) : ℚ :=
  orTruthy valueTransition.delay (orTruthy root.delay 0)

/-- Modelled from the spec: the seconds-to-milliseconds unit converter
collaborator (`../utils/time-conversion`, not under `src/`); spec §6:
a pure function, `ms = s * 1000`. -/
def secondsToMilliseconds (s : ℚ) : ℚ := s * 1000

/-- `let { elapsed = 0 } = transition; elapsed = elapsed - secondsToMilliseconds(delay)`
(src/packages/framer-motion/src/animation/index.ts:40-41). -/
def computeElapsed (root : Transition) (delay : ℚ) : ℚ :=
  root.elapsed.getD 0 - secondsToMilliseconds delay

/-- The owner of a `MotionValue`; `hasOnUpdateProp` models
`value.owner.getProps().onUpdate` being present. -/
structure MotionValueOwner where
  hasOnUpdateProp : Bool
deriving DecidableEq

/-- The reactive value container: current value, derived velocity
(`value.getVelocity()`), and an optional owner. -/
structure MotionValue where
  current : ℚ
  velocity : ℚ
  owner : Option MotionValueOwner
deriving DecidableEq

/-- Modelled from the spec: the keyframe-resolution collaborator
(`getKeyframes` from `./utils/keyframes`, not under `src/`); spec §4.1 step 4:
expand the shorthand single target into `[current, target]`. -/
def getKeyframes (value : MotionValue) (_valueName : String) (target : ℚ)
    (_valueTransition : Transition) : List ℚ :=
  [value.current, target]

/-- The normalized strategy-agnostic options bag (`AnimationOptions` from
`./types`). The callbacks are the event traces produced when the strategy
invokes them. -/
structure AnimationOptions where
  keyframes : List ℚ
  velocity : ℚ
  elapsed : ℚ
  onUpdate : ℚ → List Event
  onComplete : List Event
  delay : Option ℚ := none
  duration : Option ℚ := none
  «repeat» : Option ℕ := none
  repeatDelay : Option ℚ := none
  type : Option TransitionType := none
  ease : Option EaseKind := none

/-- The default `onUpdate` seeded into the options
(src/packages/framer-motion/src/animation/index.ts:56-59):
`(v) => { value.set(v); valueTransition.onUpdate && valueTransition.onUpdate(v) }`. -/
def defaultOnUpdate (valueTransition : Transition) : ℚ → List Event :=
  fun v =>
    Event.setValue v ::
      (match valueTransition.onUpdate with
       | some u => u v
       | none => [])

/-- The default `onComplete` seeded into the options
(src/packages/framer-motion/src/animation/index.ts:60-63):
`() => { onComplete(); valueTransition.onComplete && valueTransition.onComplete() }`. -/
def defaultOnComplete (valueTransition : Transition) : List Event :=
  Event.completeCb ::
    (match valueTransition.onComplete with
     | some c => c
     | none => [])

/-- The options literal of src/packages/framer-motion/src/animation/index.ts:52-65:
`{ keyframes, velocity, elapsed, onUpdate: ..., onComplete: ..., ...valueTransition }`.
The trailing spread means every field present on the effective transition,
including `elapsed`, `onUpdate` and `onComplete`, overwrites the seeded value. -/
def buildOptions (valueTransition : Transition) (velocity : ℚ) (keyframes : List ℚ)
    (elapsed : ℚ) : AnimationOptions :=
  { keyframes := keyframes
    velocity := velocity
    elapsed := valueTransition.elapsed.getD elapsed
    onUpdate := valueTransition.onUpdate.getD (defaultOnUpdate valueTransition)
    onComplete := valueTransition.onComplete.getD (defaultOnComplete valueTransition)
    delay := valueTransition.delay
    duration := valueTransition.duration
    «repeat» := valueTransition.«repeat»
    repeatDelay := valueTransition.repeatDelay
    type := valueTransition.type
    ease := valueTransition.ease }

/-- Modelled from the spec: the transition-definedness predicate collaborator
(`isTransitionDefined` from `./utils/transitions`, not under `src/`); spec §4.1
step 6c: true when the effective transition specifies any of
duration / easing / type. -/
def isTransitionDefined (t : Transition) : Bool :=
  t.duration.isSome || t.ease.isSome || t.type.isSome

/-- A partial overlay produced by the default-transition table. -/
structure DefaultOverlay where
  duration : Option ℚ := none
  ease : Option EaseKind := none
  type : Option TransitionType := none

/-- Modelled from the spec: the default-transition heuristic table collaborator
(`getDefaultTransition` from `./utils/default-transitions`, not under `src/`);
spec §6: `(valueName, options) -> partial options overlay`, with value-name
specific curves (spring-appropriate transform values get a spring, longer
keyframe lists a linear tween, everything else a short eased tween). -/
def getDefaultTransition (valueName : String) (o : AnimationOptions) : DefaultOverlay :=
  if o.keyframes.length > 2 then
    { duration := some (4 / 5), ease := some EaseKind.linear, type := some TransitionType.tween }
  else if valueName = "x" ∨ valueName = "y" ∨ valueName = "z" ∨ valueName = "rotate" ∨
      valueName = "scale" then
    { type := some TransitionType.spring }
  else
    { duration := some (3 / 10), ease := some EaseKind.easeOut, type := some TransitionType.tween }

/-- src/packages/framer-motion/src/animation/index.ts:91-96:
`if (!isTransitionDefined(valueTransition)) { options = { ...options, ...getDefaultTransition(valueName, options) } }`.
In the spread, a field present on the overlay wins over the options field. -/
def applyDefaultTransition (valueName : String) (o : AnimationOptions)
    (valueTransition : Transition) : AnimationOptions :=
  if isTransitionDefined valueTransition then o
  else
    let d := getDefaultTransition valueName o
    { o with
        duration := orO d.duration o.duration
        ease := orO d.ease o.ease
        type := orO d.type o.type }

/-- src/packages/framer-motion/src/animation/index.ts:103-109: convert
`duration` and `repeatDelay` from seconds to milliseconds, each guarded by
JavaScript truthiness (`if (options.duration)`), so an absent or zero field is
left as is. -/
def convertTimeUnits (o : AnimationOptions) : AnimationOptions :=
  let o1 :=
    if truthyQ o.duration then { o with duration := o.duration.map secondsToMilliseconds }
    else o
  if truthyQ o1.repeatDelay then
    { o1 with repeatDelay := o1.repeatDelay.map secondsToMilliseconds }
  else o1

/-- `const acceleratedValues = new Set<string>([])`
(src/packages/framer-motion/src/animation/index.ts:18): the set of
hardware-accelerable value names, empty in this build. -/
def acceleratedValues : List String := []

/-- `const canAnimate = true` (src/packages/framer-motion/src/animation/index.ts:43). -/
def canAnimate : Bool := true

/-- src/packages/framer-motion/src/animation/index.ts:111-116:
`acceleratedValues.has(valueName) && supports.waapi() && value.owner &&
!value.owner.getProps().onUpdate && !options.repeat`. The environment probe
`supports.waapi()` is passed in as a boolean. -/
def canAccelerateAnimation (valueName : String) (waapiSupported : Bool)
    (value : MotionValue) (o : AnimationOptions) : Bool :=
  acceleratedValues.contains valueName &&
  waapiSupported &&
  (match value.owner with
   | some owner => !owner.hasOnUpdateProp
   | none => false) &&
  !truthyN o.«repeat»

/-- The closed set of animation strategies the selector can dispatch to. -/
inductive Strategy where
  | instant
  | inertia
  | accelerated
  | mainThread
deriving DecidableEq

/-- One animation start: the arguments of `createMotionValueAnimation` plus the
ambient inputs it reads (`instantAnimationState.current`, `supports.waapi()`)
and the value-specific transition entry looked up for `valueName`. -/
structure SelectorInput where
  valueName : String
  value : MotionValue
  target : ℚ
  transition : Transition := {}
  valueOverride : Option Transition := none
  instantFlag : Bool := false
  waapiSupported : Bool := false

/-- The options record as first assembled (lines 27-65 of the selector):
effective transition, delay, elapsed, keyframes, then the options literal. -/
def baseOptions (inp : SelectorInput) : AnimationOptions :=
  let vt := getValueTransition inp.transition inp.valueOverride
  let delay := computeDelay vt inp.transition
  let elapsed := computeElapsed inp.transition delay
  let keyframes := getKeyframes inp.value inp.valueName inp.target vt
  buildOptions vt inp.value.velocity keyframes elapsed

/-- The options after the default-transition overlay step (line 91-96),
still in public units. -/
def preConvertOptions (inp : SelectorInput) : AnimationOptions :=
  applyDefaultTransition inp.valueName (baseOptions inp)
    (getValueTransition inp.transition inp.valueOverride)

/-- The options delivered to a timeline strategy (accelerated or main-thread),
after unit conversion (lines 103-109). -/
def timelineOptions (inp : SelectorInput) : AnimationOptions :=
  convertTimeUnits (preConvertOptions inp)

/-- The strategy-selection core of `createMotionValueAnimation`
(src/packages/framer-motion/src/animation/index.ts:20-133): returns the chosen
strategy together with the `AnimationOptions` record handed to it. -/
def createMotionValueAnimation (inp : SelectorInput) : Strategy × AnimationOptions :=
  let vt := getValueTransition inp.transition inp.valueOverride
  if !canAnimate || inp.instantFlag || decide (vt.type = some TransitionType.disabled) then
    (Strategy.instant, baseOptions inp)
  else if vt.type = some TransitionType.inertia then
    (Strategy.inertia, baseOptions inp)
  else if canAccelerateAnimation inp.valueName inp.waapiSupported inp.value
      (timelineOptions inp) then
    (Strategy.accelerated, timelineOptions inp)
  else
    (Strategy.mainThread, timelineOptions inp)

/-- One invocation a strategy makes on the callbacks of its options record. -/
inductive StratCall where
  | update (v : ℚ)
  | complete
deriving DecidableEq

/-- Modelled from the spec: the instant strategy factory collaborator
(`createInstantAnimation` from `./create-instant-animation`, not under `src/`);
spec §6 and §4.1 step 6a: it applies the final keyframe value immediately (one
`onUpdate` call with the last keyframe, no intermediate frames) and invokes
completion once. -/
def createInstantAnimation (o : AnimationOptions) : List StratCall :=
  [StratCall.update (o.keyframes.getLastD 0), StratCall.complete]

/-! ## The range-transform utility (`src/src/utils/transform.ts`) -/

/-- The only runtime error relevant here. -/
inductive JsError where
  | typeError
deriving DecidableEq

/-- A mixing function: blends two endpoint representations at a normalized
position. Custom value types are modelled as blending their numeric
representations. -/
def MixFn : Type := ℚ → ℚ → ℚ → ℚ

/-- JavaScript values as far as the transform utility inspects them: numbers,
strings, booleans, `null`, `undefined`, mix functions, and objects that may
carry a `mix` property. -/
inductive JVal where
  | num (q : ℚ)
  | str (s : String)
  | bool (b : Bool)
  | null
  | undef
  | fnMix (f : MixFn)
  | obj (mix : Option MixFn)

/-- JavaScript `typeof`; note `typeof null === "object"`. -/
def typeof : JVal → String
  | JVal.num _ => "number"
  | JVal.str _ => "string"
  | JVal.bool _ => "boolean"
  | JVal.null => "object"
  | JVal.undef => "undefined"
  | JVal.fnMix _ => "function"
  | JVal.obj _ => "object"

/-- JavaScript truthiness. -/
def truthy : JVal → Bool
  | JVal.num q => decide (q ≠ 0)
  | JVal.str s => decide (s ≠ "")
  | JVal.bool b => b
  | JVal.null => false
  | JVal.undef => false
  | JVal.fnMix _ => true
  | JVal.obj _ => true

/-- JavaScript property access `v.mix`: reading a property of `null` or
`undefined` throws a `TypeError`; on other non-object values it yields
`undefined`. -/
def mixProp : JVal → Except JsError JVal
  | JVal.null => Except.error JsError.typeError
  | JVal.undef => Except.error JsError.typeError
  | JVal.obj m =>
      Except.ok
        (match m with
         | some f => JVal.fnMix f
         | none => JVal.undef)
  | _ => Except.ok JVal.undef

/-- `const isCustomValueType = (v) => { return typeof v === "object" && v.mix }`
(src/src/utils/transform.ts:31-33): for `null` the `typeof` test passes and
the `.mix` access throws. The result is the truthiness of `v.mix`. -/
def isCustomValueType (v : JVal) : Except JsError Bool :=
  if typeof v = "object" then (mixProp v).map truthy
  else Except.ok false

/-- `const getMixer = (v) => (isCustomValueType(v) ? v.mix : undefined)`
(src/src/utils/transform.ts:35). -/
def getMixer (v : JVal) : Except JsError (Option JVal) := do
  let c ← isCustomValueType v
  if c then
    let m ← mixProp v
    return some m
  else
    return none

/-- `TransformOptions` (src/src/utils/transform.ts:8-29): `clamp` (defaults to
true inside the interpolator), a single easing function, and a mixer override. -/
structure TransformOptions where
  clamp : Option Bool := none
  ease : Option (ℚ → ℚ) := none
  mixer : Option MixFn := none

/-- Options as consumed by the popcorn `interpolate` collaborator. -/
structure PopcornOptions where
  clamp : Option Bool := none
  ease : Option (ℚ → ℚ) := none
  mixer : Option MixFn := none

/-- Numeric value of a `JVal` output element (outputs are numbers on the
numeric path; non-numbers only ever meet a custom mixer in this model). -/
def toNum : JVal → ℚ
  | JVal.num q => q
  | _ => 0

/-- Clamp `v` into `[lo, hi]`. -/
def clampQ (lo hi v : ℚ) : ℚ := max lo (min hi v)

/-- Interpolate inside one segment: normalized position, easing, then mixing. -/
def segMix (mix : MixFn) (ease : ℚ → ℚ) (x0 x1 : ℚ) (y0 y1 : JVal) (v : ℚ) : JVal :=
  let t := if x1 = x0 then 0 else (v - x0) / (x1 - x0)
  JVal.num (mix (toNum y0) (toNum y1) (ease t))

/-- Walk the segments in ascending ordinal order and interpolate in the first
segment bracketing `v`; past the last boundary, the final segment
extrapolates. -/
def interpWalk (mix : MixFn) (ease : ℚ → ℚ) :
    ℚ → ℚ → JVal → JVal → List (ℚ × JVal) → ℚ → JVal
  | x0, x1, y0, y1, [], v => segMix mix ease x0 x1 y0 y1 v
  | x0, x1, y0, y1, (x2, y2) :: rest, v =>
      if (x0 ≤ v ∧ v ≤ x1) ∨ (x1 ≤ v ∧ v ≤ x0) then segMix mix ease x0 x1 y0 y1 v
      else interpWalk mix ease x1 x2 y1 y2 rest v

/-- Modelled from the spec: the popcorn `interpolate` collaborator
(`@popmotion/popcorn`, not under `src/`); spec §4.2: locate the bracketing
segment (first match by ascending ordinal index), normalize, ease, mix;
`clamp` defaults to `true` and saturates out-of-range inputs to the boundary
outputs, while `clamp: false` extrapolates with the nearest segment's slope;
the default mixer is linear numeric blending. Fewer than two points is a
caller contract violation and yields `undefined`. -/
def popcornInterpolate (inputRange : List ℚ) (outputRange : List JVal)
    (opts : PopcornOptions) : ℚ → JVal := fun v =>
  let clamp := opts.clamp.getD true
  let ease := opts.ease.getD id
  let mix := opts.mixer.getD (fun a b t => a + (b - a) * t)
  match inputRange, outputRange with
  | x0 :: x1 :: xs, y0 :: y1 :: ys =>
      let xlast := (x1 :: xs).getLastD x1
      let v1 := if clamp then (if x0 ≤ xlast then clampQ x0 xlast v else clampQ xlast x0 v) else v
      if (x0 ≤ xlast ∧ v1 ≤ x0) ∨ (xlast ≤ x0 ∧ x0 ≤ v1) then segMix mix ease x0 x1 y0 y1 v1
      else interpWalk mix ease x0 x1 y0 y1 (xs.zip ys) v1
  | _, _ => JVal.undef

/-- The auto-detected mix property as a usable mixer, when it is a function. -/
def mixerOfJVal : Option JVal → Option MixFn
  | some (JVal.fnMix f) => some f
  | _ => none

/-- The interpolator construction of src/src/utils/transform.ts:114-117:
`interpolate(inputRange, outputRange, { mixer: getMixer(outputRange[0]), ...options })`.
The mixer auto-detection runs first (and can throw); a mixer present on the
user options wins over the auto-detected one by spread precedence. -/
def mkInterpolator (inputRange : List ℚ) (outputRange : List JVal)
    (options : TransformOptions) : Except JsError (ℚ → JVal) := do
  let auto ← getMixer (outputRange.headD JVal.undef)
  return popcornInterpolate inputRange outputRange
    { clamp := options.clamp
      ease := options.ease
      mixer := orO options.mixer (mixerOfJVal auto) }

/-- The two overloaded call shapes of `transform`
(src/src/utils/transform.ts:102-106): the immediate shape starts with a
number, the curried shape with the input-range array. -/
inductive TransformArgs where
  | immediate (inputValue : ℚ) (inputRange : List ℚ) (outputRange : List JVal)
      (options : TransformOptions)
  | curried (inputRange : List ℚ) (outputRange : List JVal) (options : TransformOptions)

/-- `Array.isArray(args[0])` on the two call shapes. -/
def firstArgIsArray : TransformArgs → Bool
  | TransformArgs.immediate _ _ _ _ => false
  | TransformArgs.curried _ _ _ => true

/-- `const useImmediate = !Array.isArray(args[0])` (src/src/utils/transform.ts:107). -/
def useImmediate (args : TransformArgs) : Bool := !firstArgIsArray args

/-- The result of a `transform` call: a value (immediate shape) or a reusable
interpolating function (curried shape). -/
inductive TransformResult where
  | value (v : JVal)
  | func (f : ℚ → JVal)

/-- `transform` (src/src/utils/transform.ts:102-120): dispatch on the shape of
the first argument, read the arguments at the dispatched offsets, build the
interpolator, and either apply it immediately or return it. -/
def transform (args : TransformArgs) : Except JsError TransformResult :=
  let inputRange :=
    match args with
    | TransformArgs.immediate _ ir _ _ => ir
    | TransformArgs.curried ir _ _ => ir
  let outputRange :=
    match args with
    | TransformArgs.immediate _ _ o _ => o
    | TransformArgs.curried _ o _ => o
  let options :=
    match args with
    | TransformArgs.immediate _ _ _ o => o
    | TransformArgs.curried _ _ o => o
  (mkInterpolator inputRange outputRange options).map fun interpolator =>
    match args with
    | TransformArgs.immediate v _ _ _ => TransformResult.value (interpolator v)
    | TransformArgs.curried _ _ _ => TransformResult.func interpolator

/-! ## Concrete inputs used by the claim theorems -/

/-- A root transition that supplies its own `onUpdate` and `onComplete`. -/
def callbackTransition : Transition :=
  { onUpdate := some (fun v => [Event.userUpdate v])
    onComplete := some [Event.userComplete] }

/-- An animation start whose effective transition supplies user callbacks. -/
def callbackInput : SelectorInput :=
  { valueName := "x"
    value := { current := 0, velocity := 0, owner := none }
    target := 1
    transition := callbackTransition }

/-- A root transition with a value-level delay of half a second. -/
def delayInput : SelectorInput :=
  { valueName := "x"
    value := { current := 0, velocity := 0, owner := none }
    target := 1
    transition := { delay := some (1 / 2) } }

/-- A resumed animation: 500 ms already elapsed, 0.2 s declared delay. -/
def resumeTransition : Transition :=
  { elapsed := some 500, delay := some (1 / 5) }

/-- An animation start resuming from `resumeTransition`. -/
def resumeInput : SelectorInput :=
  { valueName := "x"
    value := { current := 0, velocity := 0, owner := none }
    target := 1
    transition := resumeTransition }

/-- A plain animation start with an empty transition. -/
def plainInput : SelectorInput :=
  { valueName := "x"
    value := { current := 0, velocity := 0, owner := none }
    target := 1 }

/-! ## Helper lemmas -/

theorem orO_none {α : Type} (a : Option α) : orO a none = a := by
  cases a <;> rfl

theorem orO_some {α : Type} (x : α) (b : Option α) : orO (some x) b = some x := rfl

theorem isSome_false_eq_none {α : Type} {o : Option α} (h : o.isSome = false) : o = none := by
  cases o
  · rfl
  · simp at h

/-- The auto-mixer detection yields no mixer on a numeric output element. -/
theorem getMixer_num (q : ℚ) : getMixer (JVal.num q) = Except.ok none := rfl

/-- `clamp` left unspecified behaves as `clamp: true` inside the interpolator. -/
theorem popcornInterpolate_clamp_default (ir : List ℚ) (outR : List JVal)
    (e : Option (ℚ → ℚ)) (m : Option MixFn) (v : ℚ) :
    popcornInterpolate ir outR { clamp := none, ease := e, mixer := m } v =
      popcornInterpolate ir outR { clamp := some true, ease := e, mixer := m } v := rfl

/-- `convertTimeUnits` multiplies `duration` and `repeatDelay` by 1000 when
present (a present zero is not rewritten by the code, but `0 * 1000 = 0`) and
leaves every other field unchanged. -/
theorem convertTimeUnits_fields (o : AnimationOptions) :
    (convertTimeUnits o).duration = o.duration.map secondsToMilliseconds ∧
    (convertTimeUnits o).repeatDelay = o.repeatDelay.map secondsToMilliseconds ∧
    (convertTimeUnits o).elapsed = o.elapsed ∧
    (convertTimeUnits o).delay = o.delay ∧
    (convertTimeUnits o).keyframes = o.keyframes ∧
    (convertTimeUnits o).velocity = o.velocity := by
  rcases hd : o.duration with _ | d <;> rcases hr : o.repeatDelay with _ | r
  · simp [convertTimeUnits, truthyQ, hd, hr]
  · by_cases hr0 : r = 0 <;>
      simp [convertTimeUnits, truthyQ, hd, hr, hr0, secondsToMilliseconds]
  · by_cases hd0 : d = 0 <;>
      simp [convertTimeUnits, truthyQ, hd, hr, hd0, secondsToMilliseconds]
  · by_cases hd0 : d = 0 <;> by_cases hr0 : r = 0 <;>
      simp [convertTimeUnits, truthyQ, hd, hr, hd0, hr0, secondsToMilliseconds]

/-- The default-transition overlay never touches `delay`. -/
theorem applyDefaultTransition_delay (name : String) (o : AnimationOptions)
    (vt : Transition) : (applyDefaultTransition name o vt).delay = o.delay := by
  unfold applyDefaultTransition
  split <;> rfl

/-! ## Claim theorems -/

/-- C1: the claim fails on the code. When the effective transition supplies its
own `onUpdate` and `onComplete`, the trailing `...valueTransition` spread in
the options literal (src/packages/framer-motion/src/animation/index.ts:52-65)
replaces the seeded wrappers, so the options' `onUpdate` is the user callback
alone — it never writes the value via `value.set` — and the options'
`onComplete` is the user callback alone — it never invokes the caller-supplied
completion callback. The forwarding branches of the seeded wrappers are dead
code: they can only fire when the user callback exists, which is exactly when
the spread has replaced them. -/
theorem claim1_spread_overwrites_callbacks :
    (createMotionValueAnimation callbackInput).2.onUpdate 7 = [Event.userUpdate 7] ∧
    Event.setValue 7 ∉ (createMotionValueAnimation callbackInput).2.onUpdate 7 ∧
    (createMotionValueAnimation callbackInput).2.onComplete = [Event.userComplete] ∧
    Event.completeCb ∉ (createMotionValueAnimation callbackInput).2.onComplete ∧
    defaultOnUpdate callbackTransition 7 = [Event.setValue 7, Event.userUpdate 7] ∧
    defaultOnComplete callbackTransition = [Event.completeCb, Event.userComplete] := by
  decide

/-- C2 counterexample: a value-specific `delay` of `0` does not win over the
root `delay`. With a value-specific override `{ delay: 0 }` over a root
transition `{ delay: 1 }`, the code's `valueTransition.delay || transition.delay || 0`
treats the present `0` as falsy and computes an effective delay of `1`, while
the claim demands `0`. -/
theorem claim2_zero_delay_counterexample :
    ({ delay := some 0 } : Transition).delay = some 0 ∧
    (getValueTransition { delay := some 1 } (some { delay := some 0 })).delay = some 0 ∧
    computeDelay (getValueTransition { delay := some 1 } (some { delay := some 0 }))
      { delay := some 1 } = 1 ∧
    (1 : ℚ) ≠ 0 := by
  decide

/-- C2 amended: for every field F present on the value-specific override, the
merged effective transition's F equals the override's value regardless of the
root; the effective delay equals the value-specific delay when it is present
and nonzero, falls back to a nonzero root delay when the value-specific delay
is absent or zero (JavaScript `||` treats a present `0` as unset), and is `0`
when neither supplies a nonzero delay. -/
theorem claim2_override_fields_and_delay_fallback :
    (∀ root ovr : Transition,
      (∀ x, ovr.duration = some x → (getValueTransition root (some ovr)).duration = some x) ∧
      (∀ x, ovr.«repeat» = some x → (getValueTransition root (some ovr)).«repeat» = some x) ∧
      (∀ x, ovr.repeatDelay = some x →
        (getValueTransition root (some ovr)).repeatDelay = some x) ∧
      (∀ x, ovr.type = some x → (getValueTransition root (some ovr)).type = some x) ∧
      (∀ x, ovr.ease = some x → (getValueTransition root (some ovr)).ease = some x) ∧
      (∀ x, ovr.elapsed = some x → (getValueTransition root (some ovr)).elapsed = some x) ∧
      (∀ x, ovr.delay = some x → (getValueTransition root (some ovr)).delay = some x) ∧
      (∀ u, ovr.onUpdate = some u → (getValueTransition root (some ovr)).onUpdate = some u) ∧
      (∀ c, ovr.onComplete = some c →
        (getValueTransition root (some ovr)).onComplete = some c)) ∧
    (∀ vt root : Transition, ∀ d, vt.delay = some d → d ≠ 0 → computeDelay vt root = d) ∧
    (∀ vt root : Transition, ∀ r, (vt.delay = none ∨ vt.delay = some 0) →
      root.delay = some r → r ≠ 0 → computeDelay vt root = r) ∧
    (∀ vt root : Transition, (vt.delay = none ∨ vt.delay = some 0) →
      (root.delay = none ∨ root.delay = some 0) → computeDelay vt root = 0) := by
  refine ⟨?_, ?_, ?_, ?_⟩
  · intro root ovr
    refine ⟨?_, ?_, ?_, ?_, ?_, ?_, ?_, ?_, ?_⟩ <;>
      intro x h <;> simp [getValueTransition, orO, h]
  · intro vt root d h hd
    simp [computeDelay, orTruthy, h, hd]
  · intro vt root r h hr hr0
    rcases h with h | h <;> simp [computeDelay, orTruthy, h, hr, hr0]
  · intro vt root h1 h2
    rcases h1 with h1 | h1 <;> rcases h2 with h2 | h2 <;>
      simp [computeDelay, orTruthy, h1, h2]

/-- C2 witness: the amended delay rule at concrete inputs — a nonzero
value-specific delay wins, a zero value-specific delay falls back to the root,
and the default is zero — and a value-specific `duration` overrides the root. -/
theorem claim2_override_fields_and_delay_fallback_check :
    computeDelay { delay := some 2 } {} = 2 ∧
    computeDelay { delay := some 0 } { delay := some 3 } = 3 ∧
    computeDelay {} {} = 0 ∧
    (getValueTransition { duration := some 9 } (some { duration := some 4 })).duration =
      some 4 := by
  refine ⟨claim2_override_fields_and_delay_fallback.2.1 { delay := some 2 } {} 2 rfl
      (by norm_num),
    claim2_override_fields_and_delay_fallback.2.2.1 { delay := some 0 } { delay := some 3 } 3
      (Or.inr rfl) rfl (by norm_num),
    claim2_override_fields_and_delay_fallback.2.2.2 {} {} (Or.inl rfl) (Or.inl rfl),
    (claim2_override_fields_and_delay_fallback.1 { duration := some 9 }
      { duration := some 4 }).1 4 rfl⟩

/-- C3: when the transition-definedness predicate is false for the effective
transition, the value-name default heuristics are overlaid onto the options —
and since the predicate being false means the options carry no explicit
duration/easing/type, no explicitly present field is overwritten: the overlay
only fills the three heuristic fields and leaves every other field unchanged.
When the predicate is true the heuristics are not applied at all. -/
theorem claim3_default_transition_overlay :
    ∀ (vt : Transition) (vel el : ℚ) (kf : List ℚ) (name : String),
      (isTransitionDefined vt = true →
        applyDefaultTransition name (buildOptions vt vel kf el) vt =
          buildOptions vt vel kf el) ∧
      (isTransitionDefined vt = false →
        (buildOptions vt vel kf el).duration = none ∧
        (buildOptions vt vel kf el).ease = none ∧
        (buildOptions vt vel kf el).type = none ∧
        applyDefaultTransition name (buildOptions vt vel kf el) vt =
          { buildOptions vt vel kf el with
              duration := (getDefaultTransition name (buildOptions vt vel kf el)).duration
              ease := (getDefaultTransition name (buildOptions vt vel kf el)).ease
              type := (getDefaultTransition name (buildOptions vt vel kf el)).type }) := by
  intro vt vel el kf name
  constructor
  · intro h
    simp [applyDefaultTransition, h]
  · intro h
    have hfields : vt.duration = none ∧ vt.ease = none ∧ vt.type = none := by
      unfold isTransitionDefined at h
      simp only [Bool.or_eq_false_iff] at h
      exact ⟨isSome_false_eq_none h.1.1, isSome_false_eq_none h.1.2,
        isSome_false_eq_none h.2⟩
    have hd : (buildOptions vt vel kf el).duration = vt.duration := rfl
    have he : (buildOptions vt vel kf el).ease = vt.ease := rfl
    have ht : (buildOptions vt vel kf el).type = vt.type := rfl
    refine ⟨hd.trans hfields.1, he.trans hfields.2.1, ht.trans hfields.2.2, ?_⟩
    simp [applyDefaultTransition, h, hd.trans hfields.1, he.trans hfields.2.1,
      ht.trans hfields.2.2, orO_none]

/-- C3 witness: a defined transition (explicit duration) is left alone; an
empty transition carries no explicit duration into the options. -/
theorem claim3_default_transition_overlay_check :
    isTransitionDefined { duration := some 1 } = true ∧
    applyDefaultTransition "opacity" (buildOptions { duration := some 1 } 0 [0, 1] 0)
      { duration := some 1 } = buildOptions { duration := some 1 } 0 [0, 1] 0 ∧
    isTransitionDefined {} = false ∧
    (buildOptions {} 0 [0, 1] 0).duration = none := by
  refine ⟨rfl,
    (claim3_default_transition_overlay { duration := some 1 } 0 0 [0, 1] "opacity").1 rfl,
    rfl,
    ((claim3_default_transition_overlay {} 0 0 [0, 1] "opacity").2 rfl).1⟩

/-- C4: whenever the value cannot be animated (`canAnimate`, constantly true in
this build, is false), or the process-wide instant-animations flag is active,
or the effective transition sets `type === false`, the instant strategy is
selected; the instant strategy invokes the `onComplete` callback of its
options exactly once and only ever invokes `onUpdate` with the final keyframe
value — never with an intermediate one. -/
theorem claim4_instant_selection :
    ∀ inp : SelectorInput,
      (canAnimate = false ∨ inp.instantFlag = true ∨
        (getValueTransition inp.transition inp.valueOverride).type =
          some TransitionType.disabled) →
      (createMotionValueAnimation inp).1 = Strategy.instant ∧
      (createInstantAnimation (createMotionValueAnimation inp).2).count StratCall.complete
        = 1 ∧
      (∀ v : ℚ, StratCall.update v ∈ createInstantAnimation (createMotionValueAnimation inp).2 →
        v = (createMotionValueAnimation inp).2.keyframes.getLastD 0) := by
  intro inp h
  have hcond : (!canAnimate || inp.instantFlag ||
      decide ((getValueTransition inp.transition inp.valueOverride).type =
        some TransitionType.disabled)) = true := by
    rcases h with h | h | h
    · simp [canAnimate] at h
    · simp [h]
    · simp [h]
  refine ⟨?_, ?_, ?_⟩
  · simp [createMotionValueAnimation, hcond]
  · simp [createInstantAnimation, List.count_cons]
  · intro v hv
    rcases List.mem_cons.mp hv with h | h
    · injection h
    · rcases List.mem_cons.mp h with h2 | h2
      · exact StratCall.noConfusion h2
      · exact absurd h2 (List.not_mem_nil _)

/-- C4 witness: with the process-wide instant flag set, a plain animation start
resolves to the instant strategy. -/
theorem claim4_instant_selection_check :
    ({ plainInput with instantFlag := true } : SelectorInput).instantFlag = true ∧
    (createMotionValueAnimation { plainInput with instantFlag := true }).1 =
      Strategy.instant :=
  ⟨rfl, (claim4_instant_selection { plainInput with instantFlag := true }
    (Or.inr (Or.inl rfl))).1⟩

/-- C5 counterexample: a time field of the public transition reaches the
main-thread strategy still expressed in seconds. With a root transition
`{ delay: 0.5 }`, the animation falls through to the main-thread strategy and
the options delivered to it still carry `delay = 1/2` — the raw seconds value
(0.5 s would be 500 ms), because the selector folds the delay into `elapsed`
but never converts the `delay` field that the transition spread copied into
the options. -/
theorem claim5_delay_reaches_strategy_in_seconds :
    (createMotionValueAnimation delayInput).1 = Strategy.mainThread ∧
    delayInput.transition.delay = some (1 / 2) ∧
    (createMotionValueAnimation delayInput).2.delay = some (1 / 2) ∧
    secondsToMilliseconds (1 / 2) = 500 ∧
    (1 / 2 : ℚ) ≠ 500 := by
  refine ⟨rfl, rfl, rfl, by norm_num [secondsToMilliseconds], by norm_num⟩

/-- C5 amended: for every animation start that reaches a timeline strategy, the
delivered options are the unit-converted options: `duration` and `repeatDelay`
equal the pre-conversion values multiplied by 1000 (a present zero is left
alone by the truthiness guard, but equals its product with 1000 anyway), and
`elapsed` is already in milliseconds; the `delay` field of the effective
transition, however, is copied through unconverted (still in seconds), its
timing effect having been folded into `elapsed`. -/
theorem claim5_time_fields_milliseconds :
    ∀ inp : SelectorInput,
      ((createMotionValueAnimation inp).1 = Strategy.mainThread ∨
       (createMotionValueAnimation inp).1 = Strategy.accelerated) →
      (createMotionValueAnimation inp).2 = timelineOptions inp ∧
      (timelineOptions inp).duration =
        (preConvertOptions inp).duration.map secondsToMilliseconds ∧
      (timelineOptions inp).repeatDelay =
        (preConvertOptions inp).repeatDelay.map secondsToMilliseconds ∧
      (timelineOptions inp).elapsed = (preConvertOptions inp).elapsed ∧
      (timelineOptions inp).delay = (preConvertOptions inp).delay ∧
      (preConvertOptions inp).delay =
        (getValueTransition inp.transition inp.valueOverride).delay := by
  intro inp h
  have hfields := convertTimeUnits_fields (preConvertOptions inp)
  refine ⟨?_, hfields.1, hfields.2.1, hfields.2.2.1, hfields.2.2.2.1, ?_⟩
  · revert h
    simp only [createMotionValueAnimation]
    split_ifs <;> intro h
    · rcases h with h | h <;> simp at h
    · rcases h with h | h <;> simp at h
    · rfl
    · rfl
  · rw [preConvertOptions, applyDefaultTransition_delay]
    rfl

/-- C5 witness: a plain animation start reaches the main-thread strategy and is
handed the unit-converted options. -/
theorem claim5_time_fields_milliseconds_check :
    (createMotionValueAnimation plainInput).1 = Strategy.mainThread ∧
    (createMotionValueAnimation plainInput).2 = timelineOptions plainInput :=
  ⟨by decide, (claim5_time_fields_milliseconds plainInput (Or.inl (by decide))).1⟩

/-- C6: the claim fails on the code. The selector computes
`elapsed = (transition.elapsed ?? 0) - delay * 1000` — for `elapsed = 500` ms
and `delay = 0.2` s that is `300` — but the trailing `...valueTransition`
spread in the options literal reinstates the raw `elapsed` (500), so the value
placed in the options is `500`, not the computed `300`. -/
theorem claim6_options_elapsed_overwritten :
    computeDelay (getValueTransition resumeTransition none) resumeTransition = 1 / 5 ∧
    computeElapsed resumeTransition (1 / 5) = 300 ∧
    (createMotionValueAnimation resumeInput).2.elapsed = 500 ∧
    (300 : ℚ) ≠ 500 := by
  refine ⟨by norm_num [computeDelay, getValueTransition, resumeTransition, orTruthy],
    by norm_num [computeElapsed, resumeTransition, secondsToMilliseconds], rfl, by norm_num⟩

/-- C7: hardware acceleration is selected only when every eligibility condition
holds, and in this build — whose accelerable-value set is empty — the
eligibility test is false for every input and the accelerated branch is never
taken for any animation start. -/
theorem claim7_acceleration_never_selected :
    acceleratedValues = [] ∧
    (∀ (name : String) (waapi : Bool) (value : MotionValue) (o : AnimationOptions),
      canAccelerateAnimation name waapi value o = false) ∧
    (∀ (name : String) (waapi : Bool) (value : MotionValue) (o : AnimationOptions),
      canAccelerateAnimation name waapi value o = true ↔
        (name ∈ acceleratedValues ∧ waapi = true ∧
         (∃ owner, value.owner = some owner ∧ owner.hasOnUpdateProp = false) ∧
         truthyN o.«repeat» = false)) ∧
    (∀ inp : SelectorInput, (createMotionValueAnimation inp).1 ≠ Strategy.accelerated) := by
  have hfalse : ∀ (name : String) (waapi : Bool) (value : MotionValue)
      (o : AnimationOptions), canAccelerateAnimation name waapi value o = false := by
    intro name waapi value o
    simp [canAccelerateAnimation, acceleratedValues]
  refine ⟨rfl, hfalse, ?_, ?_⟩
  · intro name waapi value o
    rw [hfalse]
    constructor
    · intro h
      exact absurd h (by simp)
    · rintro ⟨hmem, -⟩
      simp [acceleratedValues] at hmem
  · intro inp
    simp only [createMotionValueAnimation]
    split_ifs with h1 h2 h3
    · simp
    · simp
    · exact absurd h3 (by simp [hfalse])
    · simp

/-- C7 witness: a concrete owner with a custom update handler is not
accelerated even with every other condition favourable, and a plain animation
start does not select the accelerated strategy. -/
theorem claim7_acceleration_never_selected_check :
    canAccelerateAnimation "x" true
      { current := 0, velocity := 0, owner := some { hasOnUpdateProp := true } }
      (baseOptions plainInput) = false ∧
    (createMotionValueAnimation plainInput).1 ≠ Strategy.accelerated :=
  ⟨claim7_acceleration_never_selected.2.1 "x" true
      { current := 0, velocity := 0, owner := some { hasOnUpdateProp := true } }
      (baseOptions plainInput),
    claim7_acceleration_never_selected.2.2.2 plainInput⟩

/-- C8: the curried call shape produces a function that, applied to the input
value, yields exactly the result of the immediate call shape on the same
arguments — including the propagation of any mixer-detection error — because
both shapes build the same interpolator; the dispatch between the shapes is by
whether the first argument is an array. -/
theorem claim8_curried_immediate_agree :
    (∀ (v : ℚ) (ir : List ℚ) (outR : List JVal) (opts : TransformOptions),
      transform (TransformArgs.immediate v ir outR opts) =
        (transform (TransformArgs.curried ir outR opts)).map
          (fun r =>
            match r with
            | TransformResult.func f => TransformResult.value (f v)
            | r => r)) ∧
    (∀ (v : ℚ) (ir : List ℚ) (outR : List JVal) (opts : TransformOptions),
      firstArgIsArray (TransformArgs.immediate v ir outR opts) = false ∧
      useImmediate (TransformArgs.immediate v ir outR opts) = true) ∧
    (∀ (ir : List ℚ) (outR : List JVal) (opts : TransformOptions),
      firstArgIsArray (TransformArgs.curried ir outR opts) = true ∧
      useImmediate (TransformArgs.curried ir outR opts) = false) := by
  refine ⟨?_, fun _ _ _ _ => ⟨rfl, rfl⟩, fun _ _ _ => ⟨rfl, rfl⟩⟩
  intro v ir outR opts
  unfold transform
  cases h : mkInterpolator ir outR opts <;> simp [h, Except.map]

/-- C9: the range-interpolation examples — `transform(50, [0,100], [0,1])` is
`0.5`; out-of-range `150` saturates to `1` with clamping (explicit or by
default) and extrapolates to `1.5` with `clamp: false` — and omitting the
`clamp` option behaves exactly like `clamp: true` for every input. -/
theorem claim9_transform_examples_and_clamp_default :
    transform (TransformArgs.immediate 50 [0, 100] [JVal.num 0, JVal.num 1] {}) =
      Except.ok (TransformResult.value (JVal.num (1 / 2))) ∧
    transform (TransformArgs.immediate 150 [0, 100] [JVal.num 0, JVal.num 1]
        { clamp := some true }) =
      Except.ok (TransformResult.value (JVal.num 1)) ∧
    transform (TransformArgs.immediate 150 [0, 100] [JVal.num 0, JVal.num 1]
        { clamp := some false }) =
      Except.ok (TransformResult.value (JVal.num (3 / 2))) ∧
    transform (TransformArgs.immediate 150 [0, 100] [JVal.num 0, JVal.num 1] {}) =
      Except.ok (TransformResult.value (JVal.num 1)) ∧
    (∀ (v : ℚ) (ir : List ℚ) (outR : List JVal) (e : Option (ℚ → ℚ)) (m : Option MixFn),
      transform (TransformArgs.immediate v ir outR
          { clamp := none, ease := e, mixer := m }) =
        transform (TransformArgs.immediate v ir outR
          { clamp := some true, ease := e, mixer := m })) := by
  refine ⟨?_, ?_, ?_, ?_, ?_⟩
  · norm_num [transform, mkInterpolator, getMixer_num, popcornInterpolate, mixerOfJVal,
      orO, clampQ, segMix, interpWalk, toNum, Except.map, Except.bind, Except.pure, bind,
      pure]
  · norm_num [transform, mkInterpolator, getMixer_num, popcornInterpolate, mixerOfJVal,
      orO, clampQ, segMix, interpWalk, toNum, Except.map, Except.bind, Except.pure, bind,
      pure]
  · norm_num [transform, mkInterpolator, getMixer_num, popcornInterpolate, mixerOfJVal,
      orO, clampQ, segMix, interpWalk, toNum, Except.map, Except.bind, Except.pure, bind,
      pure]
  · norm_num [transform, mkInterpolator, getMixer_num, popcornInterpolate, mixerOfJVal,
      orO, clampQ, segMix, interpWalk, toNum, Except.map, Except.bind, Except.pure, bind,
      pure]
  · intro v ir outR e m
    have hpop : ∀ a : Option MixFn,
        popcornInterpolate ir outR { clamp := none, ease := e, mixer := a } =
          popcornInterpolate ir outR { clamp := some true, ease := e, mixer := a } :=
      fun a => funext fun x => popcornInterpolate_clamp_default ir outR e a x
    simp only [transform, mkInterpolator, hpop]

/-- C10: with `null` as the first output element, the auto-mixer detection of
`transform` dereferences `null.mix` (since `typeof null === "object"`), so both
call shapes raise a `TypeError` instead of returning a value; and the
auto-detected mixer is some value exactly when the first output element is a
non-null object with a truthy `mix` property, and `undefined` for every other
first element. -/
theorem claim10_null_output_raises_type_error :
    (∀ (v : ℚ) (ir : List ℚ) (tail : List JVal) (opts : TransformOptions),
      transform (TransformArgs.immediate v ir (JVal.null :: tail) opts) =
        Except.error JsError.typeError) ∧
    (∀ (ir : List ℚ) (tail : List JVal) (opts : TransformOptions),
      transform (TransformArgs.curried ir (JVal.null :: tail) opts) =
        Except.error JsError.typeError) ∧
    getMixer JVal.null = Except.error JsError.typeError ∧
    (∀ (v : JVal) (m : JVal),
      getMixer v = Except.ok (some m) ↔ ∃ f, v = JVal.obj (some f) ∧ m = JVal.fnMix f) ∧
    (∀ f, getMixer (JVal.obj (some f)) = Except.ok (some (JVal.fnMix f))) ∧
    getMixer (JVal.obj none) = Except.ok none ∧
    (∀ q, getMixer (JVal.num q) = Except.ok none) ∧
    (∀ s, getMixer (JVal.str s) = Except.ok none) ∧
    (∀ b, getMixer (JVal.bool b) = Except.ok none) ∧
    getMixer JVal.undef = Except.ok none ∧
    (∀ f, getMixer (JVal.fnMix f) = Except.ok none) := by
  refine ⟨fun _ _ _ _ => rfl, fun _ _ _ => rfl, rfl, ?_, fun _ => rfl, rfl, fun _ => rfl,
    fun _ => rfl, fun _ => rfl, rfl, fun _ => rfl⟩
  intro v m
  cases v <;>
    simp [getMixer, isCustomValueType, mixProp, typeof, truthy, Except.bind, bind, pure,
      Except.pure, Except.map]
  case obj mix =>
    cases mix <;> simp [eq_comm]

end Motion
